import Mathlib

/-!
Shallow embedding of the obsidian-radar plugin's coordinate math, viewport
conversion, interaction state machine, scene renderer and data store,
together with theorems settling the specification's claims about them.

Numeric convention: JavaScript numbers are modelled as `ℚ` wherever the
code only adds, subtracts, multiplies, divides and compares them, and as
`ℝ` where trigonometry (`Math.cos`, `Math.sin`, `Math.atan2`,
`Math.sqrt`) is involved.  `Math.atan2 y x` is modelled as
`Complex.arg (x + y*I)`, which has the same value and the same range
`(-π, π]` on reals (the exact model has no signed zeros).  Guards of the
form `Math.sqrt (d) > t` with `d, t ≥ 0` are modelled as `d > t^2`, which
is equivalent because `Real.sqrt` is strictly monotone on nonnegatives.
-/

namespace Radar

/-! ### Constants from `src/constants.ts` (`SVG_CONFIG`) -/

/-- ViewBox size (square), from `src/constants.ts`. -/
def viewBoxSize : ℚ := 600

/-- Center point (half of `viewBoxSize`), from `src/constants.ts`. -/
def svgCenter : ℚ := 300

/-- Maximum pixel radius of the radar, from `src/constants.ts`. -/
def maxRadiusPx : ℚ := 280

/-- Minimum zoom level, from `src/constants.ts`. -/
def minZoom : ℚ := 1/2

/-- Maximum zoom level, from `src/constants.ts`. -/
def maxZoom : ℚ := 4

/-- Zoom step, from `src/constants.ts`. -/
def zoomStep : ℚ := 1/4

/-- Pixel threshold separating a click from a drag
(`DRAG_THRESHOLD` in `src/ui/RadarInteractions.ts`). -/
def DRAG_THRESHOLD : ℚ := 5

/-! ### Data model from `src/types.ts` -/

/-- A category segment, from `src/types.ts` (`Category`). -/
structure Category where
  id : String
  name : String
  startAngle : ℚ
  color : Option String := none
deriving DecidableEq, Repr

/-- A priority ring, from `src/types.ts` (`PriorityLevel`). -/
structure PriorityLevel where
  id : String
  name : String
  maxRadius : ℚ
deriving DecidableEq, Repr

/-- Default categories from `src/constants.ts` (`DEFAULT_CATEGORIES`). -/
def DEFAULT_CATEGORIES : List Category :=
  [⟨"c1", "", 0, none⟩, ⟨"c2", "", 90, none⟩,
   ⟨"c3", "", 180, none⟩, ⟨"c4", "", 270, none⟩]

/-- Default priority levels from `src/constants.ts` (`DEFAULT_PRIORITIES`). -/
def DEFAULT_PRIORITIES : List PriorityLevel :=
  [⟨"p1", "Critical", 1/4⟩, ⟨"p2", "High", 1/2⟩,
   ⟨"p3", "Medium", 3/4⟩, ⟨"p4", "Low", 1⟩]

/-! ### Coordinate math from `src/utils/polarCoordinates.ts` (rational part) -/

/-- Truncation toward zero, matching the rounding JavaScript's `%`
operator performs on the quotient. -/
def jsTrunc (q : ℚ) : ℤ :=
  if 0 ≤ q then ⌊q⌋ else ⌈q⌉

/-- JavaScript's remainder operator `a % n`: the result has the sign of
the dividend, `a % n = a - n * trunc(a / n)`. -/
def jsMod (a n : ℚ) : ℚ :=
  a - n * (jsTrunc (a / n) : ℚ)

/-- The normalization step of `getCategoryFromAngle`
(`src/utils/polarCoordinates.ts` lines 96-99): `theta % 360`, plus 360 if
negative. -/
def normalizeAngle (theta : ℚ) : ℚ :=
  let m := jsMod theta 360
  if m < 0 then m + 360 else m

/-- Embedding of `clamp` from `src/utils/polarCoordinates.ts`:
`Math.max(min, Math.min(max, value))`. -/
def clamp (value lo hi : ℚ) : ℚ :=
  max lo (min hi value)

/-- The descending index loop of `getCategoryFromAngle`
(`src/utils/polarCoordinates.ts` lines 105-110), expressed as a recursion
over the reversed sorted list: return the first category scanned whose
`startAngle` is at most the angle. -/
def scanDescending (theta : ℚ) : List Category → Option Category
  | [] => none
  | c :: rest =>
    if theta ≥ c.startAngle then some c else scanDescending theta rest

/-- Embedding of `getCategoryFromAngle` from
`src/utils/polarCoordinates.ts`.  The JS
`sort((a,b) => a.startAngle - b.startAngle)` on a copy is a stable
ascending sort, modelled by `List.insertionSort`; the loop from index
`length-1` down to `0` is `scanDescending` on the reversed sorted list;
the final `sorted[sorted.length - 1] ?? categories[0]` is modelled with
`getLast?` and `head?`. -/
def getCategoryFromAngle (theta : ℚ) (categories : List Category) :
    Option Category :=
  if categories.length = 0 then none
  else
    let normalizedTheta := normalizeAngle theta
    let sorted :=
      List.insertionSort (fun a b => a.startAngle ≤ b.startAngle) categories
    match scanDescending normalizedTheta sorted.reverse with
    | some c => some c
    | none =>
      match sorted.getLast? with
      | some c => some c
      | none => categories.head?

/-- The ascending loop of `getPriorityFromRadius`
(`src/utils/polarCoordinates.ts` lines 73-77): return the first level of
the sorted list with `r ≤ maxRadius`. -/
def scanAscending (r : ℚ) : List PriorityLevel → Option PriorityLevel
  | [] => none
  | p :: rest =>
    if r ≤ p.maxRadius then some p else scanAscending r rest

/-- Embedding of `getPriorityFromRadius` from
`src/utils/polarCoordinates.ts`: scan the ascending sort for the first
level with `r ≤ maxRadius`; after the loop fall back to
`sorted[sorted.length - 1]`, which is `undefined` (`none`) exactly on an
empty array. -/
def getPriorityFromRadius (r : ℚ) (priorities : List PriorityLevel) :
    Option PriorityLevel :=
  let sorted :=
    List.insertionSort (fun a b => a.maxRadius ≤ b.maxRadius) priorities
  match scanAscending r sorted with
  | some p => some p
  | none => sorted.getLast?

/-! ### Order facts for the sort comparators -/

instance : IsTotal Category (fun a b => a.startAngle ≤ b.startAngle) :=
  ⟨fun a b => le_total a.startAngle b.startAngle⟩

instance : IsTrans Category (fun a b => a.startAngle ≤ b.startAngle) :=
  ⟨fun _ _ _ hab hbc => le_trans hab hbc⟩

instance : IsTotal PriorityLevel (fun a b => a.maxRadius ≤ b.maxRadius) :=
  ⟨fun a b => le_total a.maxRadius b.maxRadius⟩

instance : IsTrans PriorityLevel (fun a b => a.maxRadius ≤ b.maxRadius) :=
  ⟨fun _ _ _ hab hbc => le_trans hab hbc⟩

/-! ### Scene renderer: category divider labels (`src/ui/RadarRenderer.ts`) -/

/-- Embedding of `RadarRenderer.getNextCategory`: sort a copy of the
categories ascending by `startAngle`, locate the current category's
index by comparing start angles; on a miss or at the last index return
`sorted[0]`, else the following entry. -/
def getNextCategory (categories : List Category) (current : Category) :
    Option Category :=
  let sorted :=
    List.insertionSort (fun a b => a.startAngle ≤ b.startAngle) categories
  match sorted.findIdx? (fun c => c.startAngle == current.startAngle) with
  | none => sorted.head?
  | some i =>
    if i = sorted.length - 1 then sorted.head? else sorted[i+1]?

/-- Embedding of `RadarRenderer.getMidAngle`: add 360 to the end angle
when it is below the start angle, then average.  Note that the result is
not reduced modulo 360. -/
def getMidAngle (startAngle endAngle : ℚ) : ℚ :=
  let e := if endAngle < startAngle then endAngle + 360 else endAngle
  (startAngle + e) / 2

/-- The category labels produced by
`RadarRenderer.renderCategoryDividers`: for each category with a
non-empty name, a label carrying the name and the mid angle at which it
is placed (the label is positioned at `polarToCartesian(0.6, midAngle,
maxRadius)`; the angle is the datum the claim is about). -/
def categoryLabels (categories : List Category) : List (String × ℚ) :=
  if categories.length = 0 then []
  else
    categories.filterMap (fun category =>
      if category.name = "" then none
      else
        let nextCategory := getNextCategory categories category
        let midAngle := getMidAngle category.startAngle
          ((nextCategory.map (fun c => c.startAngle)).getD
            (category.startAngle + 360 / categories.length))
        some (category.name, midAngle))

/-- The amended specification's label angle: the angular midpoint of the
category's start and the next start, adding 360 when the next start is
numerically smaller, with no final normalization into `[0,360)`. -/
def specMidAngle (startAngle nextStart : ℚ) : ℚ :=
  if nextStart < startAngle then (startAngle + (nextStart + 360)) / 2
  else (startAngle + nextStart) / 2

/-- The start angle of the category following `c`, as
`renderCategoryDividers` computes it (with the dead `??` fallback for an
absent next category). -/
def nextStartAngle (categories : List Category) (c : Category) : ℚ :=
  ((getNextCategory categories c).map (fun n => n.startAngle)).getD
    (c.startAngle + 360 / categories.length)

/-! ### Viewport conversion (`RadarInteractions.getSvgCoordinates`) -/

/-- The bounding client rectangle of the SVG surface
(`svg.getBoundingClientRect()`). -/
structure SvgRect where
  left : ℚ
  top : ℚ
  width : ℚ
  height : ℚ
deriving DecidableEq, Repr

/-- Embedding of `RadarInteractions.getSvgCoordinates`
(`src/ui/RadarInteractions.ts` lines 87-107): subtract the screen-space
center of the SVG, divide by the current zoom, then divide by the base
scale `svgWidth / viewBoxSize`.  The current pan offset is not used. -/
def getSvgCoordinates (rect : SvgRect) (currentZoom : ℚ)
    (clientX clientY : ℚ) : ℚ × ℚ :=
  let svgWidth := rect.width
  let svgHeight := rect.height
  let svgCenterX := rect.left + svgWidth / 2
  let svgCenterY := rect.top + svgHeight / 2
  let offsetX := (clientX - svgCenterX) / currentZoom
  let offsetY := (clientY - svgCenterY) / currentZoom
  let baseScale := svgWidth / viewBoxSize
  (offsetX / baseScale, offsetY / baseScale)

/-- Modelled from the spec: the renderer-side application of the
viewport transform is missing from the source (`RadarRenderer` has no
`setPan`/`setTransform`, see claim C6), so the screen position of a
scene point under pan and zoom follows §4.2 of the spec: scale about the
visual center by the base scale times the zoom, then translate by the
pan offset. -/
def screenPosOfScenePoint (rect : SvgRect) (zoom panX panY : ℚ)
    (x y : ℚ) : ℚ × ℚ :=
  let baseScale := rect.width / viewBoxSize
  (rect.left + rect.width / 2 + panX + zoom * baseScale * x,
   rect.top + rect.height / 2 + panY + zoom * baseScale * y)

/-! ### Interaction listener lifecycle (`src/ui/RadarInteractions.ts`) -/

/-- The two objects listeners are attached to. -/
inductive ListenerTarget
  | document
  | svg
deriving DecidableEq, Repr

/-- The function objects used as handlers.  The `bound*` constructors
are the handlers stored on the instance in the constructor; the `*Bind`
constructors are the fresh functions created inline by
`this.onSvgMouseDown.bind(this)` and `this.onSvgTouchStart.bind(this)`
inside `setupEventListeners`.  The index identifies the construction
that created the function object (every `bind` call returns a new
object). -/
inductive HandlerFun
  | svgMouseDownBind (i : Nat)
  | boundMouseMove (i : Nat)
  | boundMouseUp (i : Nat)
  | svgTouchStartBind (i : Nat)
  | boundTouchMove (i : Nat)
  | boundTouchEnd (i : Nat)
  | boundWheel (i : Nat)
deriving DecidableEq, Repr

/-- One listener registration: target, event type, handler. -/
structure ListenerReg where
  target : ListenerTarget
  eventType : String
  handler : HandlerFun
deriving DecidableEq, Repr, BEq

/-- The registrations performed by `setupEventListeners`
(`src/ui/RadarInteractions.ts` lines 66-81) by the construction with
index `i`, in source order. -/
def setupEventListeners (i : Nat) : List ListenerReg :=
  [⟨.svg, "mousedown", .svgMouseDownBind i⟩,
   ⟨.document, "mousemove", .boundMouseMove i⟩,
   ⟨.document, "mouseup", .boundMouseUp i⟩,
   ⟨.svg, "touchstart", .svgTouchStartBind i⟩,
   ⟨.document, "touchmove", .boundTouchMove i⟩,
   ⟨.document, "touchend", .boundTouchEnd i⟩,
   ⟨.svg, "wheel", .boundWheel i⟩]

/-- The removals performed by `destroy`
(`src/ui/RadarInteractions.ts` lines 383-389) for the instance with
construction index `i`, in source order. -/
def destroyRemovals (i : Nat) : List ListenerReg :=
  [⟨.document, "mousemove", .boundMouseMove i⟩,
   ⟨.document, "mouseup", .boundMouseUp i⟩,
   ⟨.document, "touchmove", .boundTouchMove i⟩,
   ⟨.document, "touchend", .boundTouchEnd i⟩,
   ⟨.svg, "wheel", .boundWheel i⟩]

/-- `removeEventListener` deletes the registration matching target,
type and handler identity, when present. -/
def removeListener (regs : List ListenerReg) (rem : ListenerReg) :
    List ListenerReg :=
  regs.eraseP (fun r => r == rem)

/-- The registrations still live after `n` construct-then-destroy
cycles: each cycle appends the construction's registrations and then
applies the removals of its `destroy`. -/
def listenersAfterCycles : Nat → List ListenerReg
  | 0 => []
  | n+1 =>
    (destroyRemovals n).foldl removeListener
      (listenersAfterCycles n ++ setupEventListeners n)

/-- The event types for which construction registers a listener. -/
def radarEventTypes : List String :=
  (setupEventListeners 0).map (fun r => r.eventType)

/-! ### Claim C6: renderer method surface -/

/-- The public methods defined in the `RadarRenderer` class body
(`src/ui/RadarRenderer.ts`). -/
def radarRendererMethods : List String :=
  ["render", "updateData", "updateBlipPosition", "addBlip", "removeBlip",
   "setZoom", "getSvgElement", "getBlipsGroup", "destroy"]

/-- The renderer methods `RadarView.renderRadar` invokes to apply a
saved view state (`src/ui/RadarView.ts` lines 224-230): when the saved
zoom differs from 1 or the pan offset from (0,0), it calls
`this.renderer.setTransform(zoom, panX, panY)`. -/
def renderRadarRendererCalls (zoom panX panY : ℚ) : List String :=
  if zoom ≠ 1 ∨ panX ≠ 0 ∨ panY ≠ 0 then ["setTransform"] else []

/-- The renderer method `RadarView.onPanChange` invokes
(`src/ui/RadarView.ts` line 295): `this.renderer?.setPan(panX, panY)`. -/
def onPanChangeRendererCalls : List String := ["setPan"]

/-! ### Real-valued coordinate math from `src/utils/polarCoordinates.ts` -/

/-- Embedding of `polarToCartesian`: convert degrees to radians, scale
by the maximum radius and negate y for the downward-y SVG convention. -/
noncomputable def polarToCartesian (r thetaDegrees maxRadius : ℝ) :
    ℝ × ℝ :=
  let thetaRadians := thetaDegrees * Real.pi / 180
  let actualRadius := r * maxRadius
  (actualRadius * Real.cos thetaRadians,
   -(actualRadius * Real.sin thetaRadians))

/-- `Math.atan2 y x`, modelled as the complex argument of `x + y*I`
(same value, same range `(-π, π]`; both are 0 at the origin). -/
noncomputable def atan2 (y x : ℝ) : ℝ :=
  Complex.arg (↑x + ↑y * Complex.I)

/-- Embedding of `cartesianToPolar`: radius as
`sqrt(x² + y²) / maxRadius` capped at 1 by `Math.min`, angle as
`atan2(-y, x)` in degrees with 360 added when negative. -/
noncomputable def cartesianToPolar (x y maxRadius : ℝ) : ℝ × ℝ :=
  let r := Real.sqrt (x * x + y * y) / maxRadius
  let theta0 := atan2 (-y) x * 180 / Real.pi
  let theta := if theta0 < 0 then theta0 + 360 else theta0
  (min r 1, theta)

/-- Real-valued `clamp`, as applied to the polar radius in
`RadarInteractions` (`Math.max(min, Math.min(max, value))`). -/
noncomputable def clampR (value lo hi : ℝ) : ℝ :=
  max lo (min hi value)

/-! ### Interaction state machine from `src/ui/RadarInteractions.ts`

The mutable fields of the `RadarInteractions` class become a state
record; each private method becomes a function from state (and the
pointer coordinates) to state plus emitted intents; the mouse event
handlers and the absence of any abnormal-termination handler are
collected into a single `step` function driven by input events. -/

/-- The mutable instance fields of `RadarInteractions`, with their
initializers. -/
structure InteractionState where
  draggedBlip : Option String := none
  dragStartX : ℚ := 0
  dragStartY : ℚ := 0
  hasDragged : Bool := false
  currentZoom : ℚ := 1
  isPanning : Bool := false
  panStartX : ℚ := 0
  panStartY : ℚ := 0
  currentPanX : ℚ := 0
  currentPanY : ℚ := 0
  panStartOffsetX : ℚ := 0
  panStartOffsetY : ℚ := 0
  draggingClass : Bool := false
  panningClass : Bool := false
  blipTransform : Option (ℚ × ℚ) := none

/-- A freshly constructed instance. -/
def initialInteractionState : InteractionState := {}

/-- The intents of `RadarInteractionsOptions` (the callbacks the state
machine invokes). -/
inductive Intent where
  | blipMove (blipId : String) (r theta : ℝ)
  | blipClick (blipId : String)
  | zoomChange (zoom : ℚ)
  | panChange (panX panY : ℚ)

/-- The intent constructors, without their payloads. -/
inductive IntentKind where
  | blipMove
  | blipClick
  | zoomChange
  | panChange
deriving DecidableEq, Repr

/-- The kind of an intent. -/
def Intent.kind : Intent → IntentKind
  | .blipMove _ _ _ => .blipMove
  | .blipClick _ => .blipClick
  | .zoomChange _ => .zoomChange
  | .panChange _ _ => .panChange

/-- The pointer events the registered handlers can observe, plus the
abnormal-termination signal `windowBlur` (for which no handler is
registered).  The mousedown dispatch on `target.closest(".radar-blip")`
is split into the two constructors. -/
inductive InputEvent where
  | mouseDownOnBlip (blipId : String) (clientX clientY : ℚ)
  | mouseDownOnCanvas (clientX clientY : ℚ)
  | mouseMove (clientX clientY : ℚ)
  | mouseUp (clientX clientY : ℚ)
  | windowBlur

/-- Embedding of `startDrag`: remember the blip and the down-point,
reset the threshold latch, apply the `dragging` class. -/
def startDrag (s : InteractionState) (blipId : String)
    (clientX clientY : ℚ) : InteractionState :=
  { s with draggedBlip := some blipId, dragStartX := clientX,
           dragStartY := clientY, hasDragged := false,
           draggingClass := true }

/-- Embedding of `startPan`: capture the pan offset at gesture start and
apply the `panning` class. -/
def startPan (s : InteractionState) (clientX clientY : ℚ) :
    InteractionState :=
  { s with isPanning := true, panStartX := clientX, panStartY := clientY,
           panStartOffsetX := s.currentPanX,
           panStartOffsetY := s.currentPanY, panningClass := true }

/-- Embedding of `updateDragPosition`: latch `hasDragged` once the
distance from the down-point exceeds the threshold (the source's
`Math.sqrt(dx*dx+dy*dy) > DRAG_THRESHOLD` is modelled as the equivalent
squared comparison), then write the blip's live transform from the
converted coordinates. -/
def updateDragPosition (rect : SvgRect) (s : InteractionState)
    (clientX clientY : ℚ) : InteractionState :=
  match s.draggedBlip with
  | none => s
  | some _ =>
    let deltaX := clientX - s.dragStartX
    let deltaY := clientY - s.dragStartY
    let s' :=
      if DRAG_THRESHOLD * DRAG_THRESHOLD <
          deltaX * deltaX + deltaY * deltaY
      then { s with hasDragged := true } else s
    let coords := getSvgCoordinates rect s.currentZoom clientX clientY
    { s' with blipTransform := some coords }

/-- Embedding of `updatePanPosition`: recompute the pan from the gesture
start and emit a pan-changed intent. -/
def updatePanPosition (s : InteractionState) (clientX clientY : ℚ) :
    InteractionState × List Intent :=
  let deltaX := clientX - s.panStartX
  let deltaY := clientY - s.panStartY
  let s' := { s with currentPanX := s.panStartOffsetX + deltaX,
                     currentPanY := s.panStartOffsetY + deltaY }
  (s', [Intent.panChange s'.currentPanX s'.currentPanY])

/-- Embedding of `onMouseMove`: route to drag or pan update. -/
def onMouseMove (rect : SvgRect) (s : InteractionState)
    (clientX clientY : ℚ) : InteractionState × List Intent :=
  if s.draggedBlip.isSome then
    (updateDragPosition rect s clientX clientY, [])
  else if s.isPanning then updatePanPosition s clientX clientY
  else (s, [])

/-- Embedding of `endDrag`: on a latched gesture convert the up-point
through `getSvgCoordinates` and `cartesianToPolar`, clamp the radius
into `[0,1]` and emit a blip-move intent; otherwise emit a blip-click
intent; either way drop the drag state and the `dragging` class. -/
noncomputable def endDrag (rect : SvgRect) (s : InteractionState)
    (clientX clientY : ℚ) : InteractionState × List Intent :=
  match s.draggedBlip with
  | none => (s, [])
  | some blipId =>
    let intents :=
      if s.hasDragged then
        let coords := getSvgCoordinates rect s.currentZoom clientX clientY
        let polar := cartesianToPolar (coords.1 : ℝ) (coords.2 : ℝ)
          ((maxRadiusPx : ℚ) : ℝ)
        [Intent.blipMove blipId (clampR polar.1 0 1) polar.2]
      else [Intent.blipClick blipId]
    ({ s with draggedBlip := none, draggingClass := false }, intents)

/-- Embedding of `endPan`: clear the panning state and class. -/
def endPan (s : InteractionState) : InteractionState × List Intent :=
  ({ s with isPanning := false, panningClass := false }, [])

/-- One dispatch of the event loop to the handlers registered by
`setupEventListeners`.  `windowBlur` reaches no handler (none is
registered for it), so the state is untouched and nothing is emitted. -/
noncomputable def step (rect : SvgRect) (s : InteractionState) :
    InputEvent → InteractionState × List Intent
  | .mouseDownOnBlip blipId x y => (startDrag s blipId x y, [])
  | .mouseDownOnCanvas x y => (startPan s x y, [])
  | .mouseMove x y => onMouseMove rect s x y
  | .mouseUp x y =>
    if s.draggedBlip.isSome then endDrag rect s x y
    else if s.isPanning then endPan s
    else (s, [])
  | .windowBlur => (s, [])

/-- Process a sequence of events in order, concatenating the emitted
intents. -/
noncomputable def run (rect : SvgRect) :
    InteractionState → List InputEvent → InteractionState × List Intent
  | s, [] => (s, [])
  | s, e :: es =>
    let r1 := step rect s e
    let r2 := run rect r1.1 es
    (r2.1, r1.2 ++ r2.2)

/-- The threshold test of `updateDragPosition` for a pointer sample `p`
measured from the down-point `(sx, sy)`. -/
def crossed (sx sy : ℚ) (p : ℚ × ℚ) : Bool :=
  decide (DRAG_THRESHOLD * DRAG_THRESHOLD <
    (p.1 - sx) * (p.1 - sx) + (p.2 - sy) * (p.2 - sy))

/-! ### Data store from `src/data/RadarStore.ts` and the renderer's
incremental blip operations from `src/ui/RadarRenderer.ts` -/

/-- A blip, from `src/types.ts` (`Blip`); `updatedAt` is the timestamp
the store writes on mutation. -/
structure Blip where
  id : String
  type : String
  title : String
  notePath : Option String := none
  r : ℚ
  theta : ℚ
  color : Option String := none
  updatedAt : ℤ := 0
deriving DecidableEq, Repr

/-- The radar document operated on by the store, from `src/types.ts`
(`RadarData`), restricted to the fields the store's blip operations
read or write. -/
structure RadarData where
  priorityLevels : List PriorityLevel
  categories : List Category
  blips : List Blip
  updatedAt : ℤ := 0
deriving DecidableEq, Repr

/-- `Partial<Blip>` for `RadarStore.updateBlip`: each present field
overwrites the blip's. -/
structure PartialBlip where
  id : Option String := none
  type : Option String := none
  title : Option String := none
  notePath : Option String := none
  r : Option ℚ := none
  theta : Option ℚ := none
  color : Option String := none
deriving DecidableEq, Repr

/-- `Object.assign(blip, updates, \x7b updatedAt: now \x7d)`: present
fields of `updates` overwrite the blip's, then the timestamp is set. -/
def assignBlip (b : Blip) (u : PartialBlip) (now : ℤ) : Blip :=
  { id := u.id.getD b.id, type := u.type.getD b.type,
    title := u.title.getD b.title,
    notePath := (u.notePath.map some).getD b.notePath,
    r := u.r.getD b.r, theta := u.theta.getD b.theta,
    color := (u.color.map some).getD b.color, updatedAt := now }

/-- Mutating the object returned by `Array.prototype.find` updates the
first matching element of the array in place. -/
def updateFirst {α : Type} (p : α → Bool) (f : α → α) : List α → List α
  | [] => []
  | b :: bs => if p b then f b :: bs else b :: updateFirst p f bs

/-- Embedding of `RadarStore.updateBlipPosition`: find the blip by id;
when present, write `r`, `theta` and the timestamps; when absent, do
nothing. -/
def RadarStore.updateBlipPosition (radar : RadarData) (blipId : String)
    (r theta : ℚ) (now : ℤ) : RadarData :=
  match radar.blips.find? (fun b => b.id == blipId) with
  | some _ =>
    { radar with
      blips := updateFirst (fun b => b.id == blipId)
        (fun b => { b with r := r, theta := theta, updatedAt := now })
        radar.blips,
      updatedAt := now }
  | none => radar

/-- Embedding of `RadarStore.updateBlip`: find the blip by id; when
present, `Object.assign` the updates and the timestamp; when absent, do
nothing. -/
def RadarStore.updateBlip (radar : RadarData) (blipId : String)
    (updates : PartialBlip) (now : ℤ) : RadarData :=
  match radar.blips.find? (fun b => b.id == blipId) with
  | some _ =>
    { radar with
      blips := updateFirst (fun b => b.id == blipId)
        (fun b => assignBlip b updates now) radar.blips,
      updatedAt := now }
  | none => radar

/-- Embedding of `RadarStore.removeBlip`: `findIndex` then
`splice(index, 1)` when found, otherwise do nothing. -/
def RadarStore.removeBlip (radar : RadarData) (blipId : String)
    (now : ℤ) : RadarData :=
  match radar.blips.findIdx? (fun b => b.id == blipId) with
  | some i =>
    { radar with blips := radar.blips.eraseIdx i, updatedAt := now }
  | none => radar

/-- A blip group element of the renderer's blips layer: its
`data-blip-id` attribute and its `transform: translate(tx, ty)`. -/
structure SceneBlip where
  blipId : String
  tx : ℝ
  ty : ℝ

/-- Embedding of `RadarRenderer.updateBlipPosition`: `querySelector`
returns the first element with the matching `data-blip-id`; when found
its transform is rewritten from `polarToCartesian`, otherwise nothing
happens. -/
noncomputable def RadarRenderer.updateBlipPosition
    (scene : List SceneBlip) (blipId : String) (r theta : ℚ) :
    List SceneBlip :=
  match scene.find? (fun e => e.blipId == blipId) with
  | some _ =>
    updateFirst (fun e => e.blipId == blipId)
      (fun e =>
        { e with
          tx := (polarToCartesian (r : ℝ) (theta : ℝ)
            ((maxRadiusPx : ℚ) : ℝ)).1,
          ty := (polarToCartesian (r : ℝ) (theta : ℝ)
            ((maxRadiusPx : ℚ) : ℝ)).2 })
      scene
  | none => scene

/-- Embedding of `RadarRenderer.removeBlip`: `querySelector` the first
element with the matching `data-blip-id` and `.remove()` it; with no
match nothing happens. -/
def RadarRenderer.removeBlip (scene : List SceneBlip) (blipId : String) :
    List SceneBlip :=
  scene.eraseP (fun e => e.blipId == blipId)

/-! ### Theorems -/

/-! ### Helper lemmas about the embedded loops -/

lemma normalizeAngle_bounds (a : ℚ) :
    0 ≤ normalizeAngle a ∧ normalizeAngle a < 360 := by
  have h360 : (0:ℚ) < 360 := by norm_num
  unfold normalizeAngle jsMod jsTrunc
  by_cases ha : 0 ≤ a
  · have hq : 0 ≤ a / 360 := div_nonneg ha (le_of_lt h360)
    simp only [hq, if_true]
    have h1 : ((⌊a / 360⌋ : ℚ)) ≤ a / 360 := Int.floor_le _
    have h2 : a / 360 < (⌊a / 360⌋ : ℚ) + 1 := Int.lt_floor_add_one _
    have h1' : 360 * ((⌊a / 360⌋ : ℚ)) ≤ a := by
      have := mul_le_mul_of_nonneg_left h1 (le_of_lt h360)
      rwa [mul_div_cancel₀ a (ne_of_gt h360)] at this
    have h2' : a < 360 * ((⌊a / 360⌋ : ℚ)) + 360 := by
      have := mul_lt_mul_of_pos_left h2 h360
      rw [mul_add, mul_one, mul_div_cancel₀ a (ne_of_gt h360)] at this
      exact this
    have hm0 : ¬ (a - 360 * ((⌊a / 360⌋ : ℚ)) < 0) := by linarith
    simp only [hm0, if_false]
    constructor <;> linarith
  · have ha' : a < 0 := lt_of_not_le ha
    have hq : ¬ (0 ≤ a / 360) :=
      not_le.mpr (div_neg_of_neg_of_pos ha' h360)
    simp only [hq, if_false]
    have h1 : a / 360 ≤ ((⌈a / 360⌉ : ℚ)) := Int.le_ceil _
    have h2 : ((⌈a / 360⌉ : ℚ)) < a / 360 + 1 := Int.ceil_lt_add_one _
    have h1' : a ≤ 360 * ((⌈a / 360⌉ : ℚ)) := by
      have := mul_le_mul_of_nonneg_left h1 (le_of_lt h360)
      rwa [mul_div_cancel₀ a (ne_of_gt h360)] at this
    have h2' : 360 * ((⌈a / 360⌉ : ℚ)) < a + 360 := by
      have := mul_lt_mul_of_pos_left h2 h360
      rw [mul_add, mul_one, mul_div_cancel₀ a (ne_of_gt h360)] at this
      exact this
    by_cases hm : a - 360 * ((⌈a / 360⌉ : ℚ)) < 0
    · simp only [hm, if_true]
      constructor <;> linarith
    · simp only [hm, if_false]
      constructor <;> linarith

lemma getCategoryFromAngle_eq {theta : ℚ} {cats : List Category}
    (h : cats ≠ []) :
    getCategoryFromAngle theta cats =
      match scanDescending (normalizeAngle theta)
          (List.insertionSort
            (fun a b => a.startAngle ≤ b.startAngle) cats).reverse with
      | some c => some c
      | none =>
        match (List.insertionSort
            (fun a b => a.startAngle ≤ b.startAngle) cats).getLast? with
        | some c => some c
        | none => cats.head? := by
  rw [getCategoryFromAngle, if_neg (by simpa using h)]

lemma scanDescending_some {theta : ℚ} {l : List Category} {c : Category}
    (hl : l.Pairwise (fun a b => b.startAngle ≤ a.startAngle))
    (h : scanDescending theta l = some c) :
    c ∈ l ∧ c.startAngle ≤ theta ∧
      ∀ c' ∈ l, c'.startAngle ≤ theta → c'.startAngle ≤ c.startAngle := by
  induction l with
  | nil => simp [scanDescending] at h
  | cons a rest ih =>
    rw [List.pairwise_cons] at hl
    by_cases hc : theta ≥ a.startAngle
    · rw [scanDescending, if_pos hc] at h
      obtain rfl : a = c := by injection h
      refine ⟨List.mem_cons_self a rest, hc, ?_⟩
      intro c' hc' _
      rcases List.mem_cons.1 hc' with rfl | hmem
      · exact le_refl _
      · exact hl.1 c' hmem
    · rw [scanDescending, if_neg hc] at h
      obtain ⟨hmem, hle, hmax⟩ := ih hl.2 h
      refine ⟨List.mem_cons_of_mem a hmem, hle, ?_⟩
      intro c' hc' hc'le
      rcases List.mem_cons.1 hc' with rfl | hmem'
      · exact absurd hc'le (not_le.mpr (lt_of_not_ge hc))
      · exact hmax c' hmem' hc'le

lemma scanDescending_none {theta : ℚ} {l : List Category}
    (h : scanDescending theta l = none) :
    ∀ c' ∈ l, theta < c'.startAngle := by
  induction l with
  | nil => simp
  | cons a rest ih =>
    by_cases hc : theta ≥ a.startAngle
    · rw [scanDescending, if_pos hc] at h
      exact absurd h (by simp)
    · rw [scanDescending, if_neg hc] at h
      intro c' hc'
      rcases List.mem_cons.1 hc' with rfl | hmem
      · exact lt_of_not_ge hc
      · exact ih h c' hmem

lemma getLast?_max_cat {l : List Category}
    (hl : l.Pairwise (fun a b => a.startAngle ≤ b.startAngle))
    (h : l ≠ []) :
    ∃ c, l.getLast? = some c ∧ c ∈ l ∧
      ∀ c' ∈ l, c'.startAngle ≤ c.startAngle := by
  induction l with
  | nil => exact absurd rfl h
  | cons a rest ih =>
    rw [List.pairwise_cons] at hl
    cases rest with
    | nil =>
      refine ⟨a, rfl, List.mem_cons_self a [], ?_⟩
      intro c' hc'
      rcases List.mem_cons.1 hc' with rfl | hmem
      · exact le_refl _
      · simp at hmem
    | cons b t =>
      obtain ⟨c, hlast, hmem, hmax⟩ := ih hl.2 (by simp)
      refine ⟨c, by rw [List.getLast?_cons_cons]; exact hlast,
        List.mem_cons_of_mem a hmem, ?_⟩
      intro c' hc'
      rcases List.mem_cons.1 hc' with rfl | hmem'
      · exact hl.1 c hmem
      · exact hmax c' hmem'

lemma scanAscending_some {r : ℚ} {l : List PriorityLevel} {p : PriorityLevel}
    (hl : l.Pairwise (fun a b => a.maxRadius ≤ b.maxRadius))
    (h : scanAscending r l = some p) :
    p ∈ l ∧ r ≤ p.maxRadius ∧
      ∀ q ∈ l, r ≤ q.maxRadius → p.maxRadius ≤ q.maxRadius := by
  induction l with
  | nil => simp [scanAscending] at h
  | cons a rest ih =>
    rw [List.pairwise_cons] at hl
    by_cases hc : r ≤ a.maxRadius
    · rw [scanAscending, if_pos hc] at h
      obtain rfl : a = p := by injection h
      refine ⟨List.mem_cons_self a rest, hc, ?_⟩
      intro q hq _
      rcases List.mem_cons.1 hq with rfl | hmem
      · exact le_refl _
      · exact hl.1 q hmem
    · rw [scanAscending, if_neg hc] at h
      obtain ⟨hmem, hle, hmin⟩ := ih hl.2 h
      refine ⟨List.mem_cons_of_mem a hmem, hle, ?_⟩
      intro q hq hqle
      rcases List.mem_cons.1 hq with rfl | hmem'
      · exact absurd hqle hc
      · exact hmin q hmem' hqle

lemma scanAscending_none {r : ℚ} {l : List PriorityLevel}
    (h : scanAscending r l = none) :
    ∀ q ∈ l, q.maxRadius < r := by
  induction l with
  | nil => simp
  | cons a rest ih =>
    by_cases hc : r ≤ a.maxRadius
    · rw [scanAscending, if_pos hc] at h
      exact absurd h (by simp)
    · rw [scanAscending, if_neg hc] at h
      intro q hq
      rcases List.mem_cons.1 hq with rfl | hmem
      · exact lt_of_not_le hc
      · exact ih h q hmem

lemma getLast?_max_pri {l : List PriorityLevel}
    (hl : l.Pairwise (fun a b => a.maxRadius ≤ b.maxRadius))
    (h : l ≠ []) :
    ∃ p, l.getLast? = some p ∧ p ∈ l ∧
      ∀ q ∈ l, q.maxRadius ≤ p.maxRadius := by
  induction l with
  | nil => exact absurd rfl h
  | cons a rest ih =>
    rw [List.pairwise_cons] at hl
    cases rest with
    | nil =>
      refine ⟨a, rfl, List.mem_cons_self a [], ?_⟩
      intro q hq
      rcases List.mem_cons.1 hq with rfl | hmem
      · exact le_refl _
      · simp at hmem
    | cons b t =>
      obtain ⟨p, hlast, hmem, hmax⟩ := ih hl.2 (by simp)
      refine ⟨p, by rw [List.getLast?_cons_cons]; exact hlast,
        List.mem_cons_of_mem a hmem, ?_⟩
      intro q hq
      rcases List.mem_cons.1 hq with rfl | hmem'
      · exact hl.1 p hmem
      · exact hmax q hmem'

/-! ### Claim C7 -/

/-- C7: for every theta and non-empty category list,
`getCategoryFromAngle` normalizes theta into `[0,360)` and returns the
category with the greatest `startAngle` that is at most the normalized
theta; if the normalized theta is below every `startAngle` it wraps
around to the category with the greatest `startAngle`; with zero
categories it returns `none`.  In particular, for start angles
`{0,90,180,270}`: theta 45 and 0 give the category at 0, theta 359 and
-10 (normalized 350) give the category at 270. -/
theorem getCategoryFromAngle_spec (theta : ℚ) (cats : List Category) :
    getCategoryFromAngle theta [] = none ∧
    (0 ≤ normalizeAngle theta ∧ normalizeAngle theta < 360) ∧
    (cats ≠ [] →
      ∃ c, getCategoryFromAngle theta cats = some c ∧ c ∈ cats ∧
        ((∃ c' ∈ cats, c'.startAngle ≤ normalizeAngle theta) →
          c.startAngle ≤ normalizeAngle theta ∧
          ∀ c' ∈ cats, c'.startAngle ≤ normalizeAngle theta →
            c'.startAngle ≤ c.startAngle) ∧
        ((∀ c' ∈ cats, normalizeAngle theta < c'.startAngle) →
          ∀ c' ∈ cats, c'.startAngle ≤ c.startAngle)) ∧
    getCategoryFromAngle 45 DEFAULT_CATEGORIES = some ⟨"c1", "", 0, none⟩ ∧
    getCategoryFromAngle 0 DEFAULT_CATEGORIES = some ⟨"c1", "", 0, none⟩ ∧
    getCategoryFromAngle 359 DEFAULT_CATEGORIES =
      some ⟨"c4", "", 270, none⟩ ∧
    getCategoryFromAngle (-10) DEFAULT_CATEGORIES =
      some ⟨"c4", "", 270, none⟩ := by
  refine ⟨rfl, normalizeAngle_bounds theta, ?_, ?_, ?_, ?_, ?_⟩
  · intro hne
    set r := fun a b : Category => a.startAngle ≤ b.startAngle with hr
    set sorted := List.insertionSort r cats with hsorted_def
    have hsorted : sorted.Pairwise r := List.sorted_insertionSort r cats
    have hrev : sorted.reverse.Pairwise
        (fun a b => b.startAngle ≤ a.startAngle) :=
      List.pairwise_reverse.mpr hsorted
    have hmem : ∀ x : Category, x ∈ sorted ↔ x ∈ cats :=
      fun x => List.mem_insertionSort r
    rw [getCategoryFromAngle_eq hne]
    cases hscan : scanDescending (normalizeAngle theta) sorted.reverse with
    | some c =>
      obtain ⟨hmemc, hle, hmax⟩ := scanDescending_some hrev hscan
      rw [List.mem_reverse] at hmemc
      refine ⟨c, rfl, (hmem c).1 hmemc, ?_, ?_⟩
      · intro _
        refine ⟨hle, ?_⟩
        intro c' hc' hc'le
        exact hmax c' (List.mem_reverse.mpr ((hmem c').2 hc')) hc'le
      · intro hall
        exact absurd hle (not_le.mpr (hall c ((hmem c).1 hmemc)))
    | none =>
      have hallgt : ∀ c' ∈ cats, normalizeAngle theta < c'.startAngle := by
        intro c' hc'
        exact scanDescending_none hscan c'
          (List.mem_reverse.mpr ((hmem c').2 hc'))
      have hsne : sorted ≠ [] := by
        intro hnil
        apply hne
        have hlen := List.length_insertionSort r cats
        rw [← hsorted_def, hnil] at hlen
        exact List.length_eq_zero.mp hlen.symm
      obtain ⟨c, hlast, hmemc, hmax⟩ := getLast?_max_cat hsorted hsne
      rw [hlast]
      refine ⟨c, rfl, (hmem c).1 hmemc, ?_, ?_⟩
      · intro hex
        obtain ⟨c', hc', hc'le⟩ := hex
        exact absurd hc'le (not_le.mpr (hallgt c' hc'))
      · intro _ c' hc'
        exact hmax c' ((hmem c').2 hc')
  · have h : normalizeAngle 45 = 45 := by
      norm_num [normalizeAngle, jsMod, jsTrunc]
    rw [getCategoryFromAngle_eq (by decide)]
    norm_num [h, DEFAULT_CATEGORIES, List.insertionSort,
      List.orderedInsert, scanDescending]
  · have h : normalizeAngle 0 = 0 := by
      norm_num [normalizeAngle, jsMod, jsTrunc]
    rw [getCategoryFromAngle_eq (by decide)]
    norm_num [h, DEFAULT_CATEGORIES, List.insertionSort,
      List.orderedInsert, scanDescending]
  · have h : normalizeAngle 359 = 359 := by
      norm_num [normalizeAngle, jsMod, jsTrunc]
    rw [getCategoryFromAngle_eq (by decide)]
    norm_num [h, DEFAULT_CATEGORIES, List.insertionSort,
      List.orderedInsert, scanDescending]
  · have h : normalizeAngle (-10) = 350 := by
      have hceil : (⌈(-(1/36) : ℚ)⌉ : ℤ) = 0 := by norm_num
      norm_num [normalizeAngle, jsMod, jsTrunc, hceil]
    rw [getCategoryFromAngle_eq (by decide)]
    norm_num [h, DEFAULT_CATEGORIES, List.insertionSort,
      List.orderedInsert, scanDescending]

/-- Witness for C7: the characterization applied to the concrete input
theta 45 over the default categories. -/
theorem getCategoryFromAngle_spec_witness :
    ∃ c, getCategoryFromAngle 45 DEFAULT_CATEGORIES = some c ∧
      c ∈ DEFAULT_CATEGORIES ∧
      ((∃ c' ∈ DEFAULT_CATEGORIES,
          c'.startAngle ≤ normalizeAngle 45) →
        c.startAngle ≤ normalizeAngle 45 ∧
        ∀ c' ∈ DEFAULT_CATEGORIES,
          c'.startAngle ≤ normalizeAngle 45 →
            c'.startAngle ≤ c.startAngle) ∧
      ((∀ c' ∈ DEFAULT_CATEGORIES,
          normalizeAngle 45 < c'.startAngle) →
        ∀ c' ∈ DEFAULT_CATEGORIES, c'.startAngle ≤ c.startAngle) :=
  (getCategoryFromAngle_spec 45 DEFAULT_CATEGORIES).2.2.1 (by decide)

/-! ### Claim C10 -/

/-- C10: `getPriorityFromRadius` returns `none` on an empty priority
list (there is no fallback level then), and on every non-empty list it
returns some level: the first, in ascending `maxRadius` order, whose
`maxRadius` is at least `r`, and otherwise the level with the greatest
`maxRadius`. -/
theorem getPriorityFromRadius_spec (r : ℚ) (ps : List PriorityLevel) :
    getPriorityFromRadius r [] = none ∧
    (ps ≠ [] →
      ∃ p, getPriorityFromRadius r ps = some p ∧ p ∈ ps ∧
        ((∃ q ∈ ps, r ≤ q.maxRadius) →
          r ≤ p.maxRadius ∧
          ∀ q ∈ ps, r ≤ q.maxRadius → p.maxRadius ≤ q.maxRadius) ∧
        ((∀ q ∈ ps, q.maxRadius < r) →
          ∀ q ∈ ps, q.maxRadius ≤ p.maxRadius)) := by
  constructor
  · rfl
  · intro hne
    set rel := fun a b : PriorityLevel => a.maxRadius ≤ b.maxRadius with hrel
    set sorted := List.insertionSort rel ps with hsorted_def
    have hsorted : sorted.Pairwise rel := List.sorted_insertionSort rel ps
    have hmem : ∀ x : PriorityLevel, x ∈ sorted ↔ x ∈ ps :=
      fun x => List.mem_insertionSort rel
    show ∃ p,
        (match scanAscending r sorted with
          | some p => some p
          | none => sorted.getLast?) = some p ∧ _
    cases hscan : scanAscending r sorted with
    | some p =>
      obtain ⟨hmemp, hle, hmin⟩ := scanAscending_some hsorted hscan
      refine ⟨p, rfl, (hmem p).1 hmemp, ?_, ?_⟩
      · intro _
        refine ⟨hle, ?_⟩
        intro q hq hqle
        exact hmin q ((hmem q).2 hq) hqle
      · intro hall
        exact absurd hle (not_le.mpr (hall p ((hmem p).1 hmemp)))
    | none =>
      have hallgt : ∀ q ∈ ps, q.maxRadius < r := by
        intro q hq
        exact scanAscending_none hscan q ((hmem q).2 hq)
      have hsne : sorted ≠ [] := by
        intro hnil
        apply hne
        have hlen := List.length_insertionSort rel ps
        rw [← hsorted_def, hnil] at hlen
        exact List.length_eq_zero.mp hlen.symm
      obtain ⟨p, hlast, hmemp, hmax⟩ := getLast?_max_pri hsorted hsne
      rw [hlast]
      refine ⟨p, rfl, (hmem p).1 hmemp, ?_, ?_⟩
      · intro hex
        obtain ⟨q, hq, hqle⟩ := hex
        exact absurd hqle (not_le.mpr (hallgt q hq))
      · intro _ q hq
        exact hmax q ((hmem q).2 hq)

/-- Witness for C10: the characterization applied to the concrete radius
2 over the default priority levels. -/
theorem getPriorityFromRadius_spec_witness :
    ∃ p, getPriorityFromRadius 2 DEFAULT_PRIORITIES = some p ∧
      p ∈ DEFAULT_PRIORITIES ∧
      ((∃ q ∈ DEFAULT_PRIORITIES, (2:ℚ) ≤ q.maxRadius) →
        (2:ℚ) ≤ p.maxRadius ∧
        ∀ q ∈ DEFAULT_PRIORITIES, (2:ℚ) ≤ q.maxRadius →
          p.maxRadius ≤ q.maxRadius) ∧
      ((∀ q ∈ DEFAULT_PRIORITIES, q.maxRadius < 2) →
        ∀ q ∈ DEFAULT_PRIORITIES, q.maxRadius ≤ p.maxRadius) :=
  (getPriorityFromRadius_spec 2 DEFAULT_PRIORITIES).2 (by simp [DEFAULT_PRIORITIES])

/-! ### Claim C9 -/

/-- C9 counterexample: with categories starting at 300 ("A") and 350
("B"), the label angle for "B" is `getMidAngle 350 300 = 505`, which
does not lie in `[0,360)` — the code does not normalize the wrapped
midpoint, contradicting the claim (the normalized value would be
145). -/
theorem categoryLabels_not_normalized :
    categoryLabels
        [⟨"a", "A", 300, none⟩, ⟨"b", "B", 350, none⟩] =
      [("A", 325), ("B", 505)] ∧
    ¬ ((505 : ℚ) < 360) ∧ (505 : ℚ) ≠ 145 := by
  refine ⟨?_, by norm_num, by norm_num⟩
  norm_num [categoryLabels, getNextCategory, getMidAngle,
    List.insertionSort, List.orderedInsert, List.findIdx?, List.filterMap]
  decide

/-- C9 (amended): for every named category of a non-empty list, the
rendered divider label carries the angular midpoint of the category's
start and the next category's start, with 360 added before averaging
when the next start is numerically smaller, and no further
normalization of the result. -/
theorem categoryLabels_midAngle (categories : List Category)
    (c : Category) (s e : ℚ) (hmem : c ∈ categories) (hname : c.name ≠ "") :
    getMidAngle s e = specMidAngle s e ∧
    (c.name, specMidAngle c.startAngle (nextStartAngle categories c)) ∈
      categoryLabels categories := by
  have hmid : ∀ s' e' : ℚ, getMidAngle s' e' = specMidAngle s' e' := by
    intro s' e'
    unfold getMidAngle specMidAngle
    by_cases h : e' < s'
    · rw [if_pos h, if_pos h]
    · rw [if_neg h, if_neg h]
  refine ⟨hmid s e, ?_⟩
  have hlen : ¬ categories.length = 0 := by
    intro h
    rw [List.length_eq_zero.mp h] at hmem
    exact absurd hmem (List.not_mem_nil c)
  rw [categoryLabels, if_neg hlen, List.mem_filterMap]
  refine ⟨c, hmem, ?_⟩
  rw [if_neg hname]
  simp only [hmid, nextStartAngle]

/-- Witness for C9's amended theorem at the concrete counterexample
categories: the label of "B" carries the unnormalized wrapped midpoint
505. -/
theorem categoryLabels_midAngle_witness :
    getMidAngle 350 300 =
      specMidAngle 350 300 ∧
    ("B", specMidAngle (350:ℚ)
        (nextStartAngle
          [⟨"a", "A", 300, none⟩, ⟨"b", "B", 350, none⟩]
          ⟨"b", "B", 350, none⟩)) ∈
      categoryLabels
        [⟨"a", "A", 300, none⟩, ⟨"b", "B", 350, none⟩] := by
  have h := categoryLabels_midAngle
    [⟨"a", "A", 300, none⟩, ⟨"b", "B", 350, none⟩]
    ⟨"b", "B", 350, none⟩ 350 300 (by decide) (by decide)
  exact h

/-! ### Claim C1 -/

/-- C1: `getSvgCoordinates` does not undo the pan offset.  At zoom 1 on
a 600x600 surface, the scene point at the logical origin sits at screen
position (400, 300) when the view is panned by (100, 0) and at
(300, 300) when unpanned; the conversion maps these to the distinct
logical points (100, 0) and (0, 0), so the logical position of a
visually-touched scene point depends on the pan offset, contrary to the
claim. -/
theorem getSvgCoordinates_ignores_pan :
    getSvgCoordinates ⟨0, 0, 600, 600⟩ 1
        (screenPosOfScenePoint ⟨0, 0, 600, 600⟩ 1 100 0 0 0).1
        (screenPosOfScenePoint ⟨0, 0, 600, 600⟩ 1 100 0 0 0).2 =
      (100, 0) ∧
    getSvgCoordinates ⟨0, 0, 600, 600⟩ 1
        (screenPosOfScenePoint ⟨0, 0, 600, 600⟩ 1 0 0 0 0).1
        (screenPosOfScenePoint ⟨0, 0, 600, 600⟩ 1 0 0 0 0).2 =
      (0, 0) ∧
    ((100 : ℚ), (0 : ℚ)) ≠ ((0 : ℚ), (0 : ℚ)) := by
  refine ⟨?_, ?_, by norm_num⟩ <;>
    norm_num [getSvgCoordinates, screenPosOfScenePoint, viewBoxSize,
      Prod.ext_iff]

/-! ### Claim C2 -/

/-- C2: `destroy` does not remove every listener construction
registered.  After one construct-then-destroy cycle, the `mousedown` and
`touchstart` listeners registered on the SVG (whose handlers were
created inline with `.bind(this)` and never stored) are still live, and
listeners grow by two per cycle — contradicting the claim that a single
teardown removes every registered listener with no net growth. -/
theorem destroy_leaks_svg_listeners :
    listenersAfterCycles 1 =
      [⟨.svg, "mousedown", .svgMouseDownBind 0⟩,
       ⟨.svg, "touchstart", .svgTouchStartBind 0⟩] ∧
    listenersAfterCycles 1 ≠ [] ∧
    (listenersAfterCycles 2).length = 4 ∧
    (listenersAfterCycles 3).length = 6 := by
  refine ⟨by decide, by decide, by decide, by decide⟩

/-- C6: the renderer does not expose `setPan` or `setTransform` — only
`setZoom` exists — even though `RadarView.renderRadar` calls
`setTransform` for any saved view state with zoom 2, and
`RadarView.onPanChange` calls `setPan` on every pan change.  The claim
that the renderer exposes all three operations fails on the code. -/
theorem renderer_missing_setPan_setTransform :
    "setTransform" ∈ renderRadarRendererCalls 2 0 0 ∧
    "setPan" ∈ onPanChangeRendererCalls ∧
    "setTransform" ∉ radarRendererMethods ∧
    "setPan" ∉ radarRendererMethods ∧
    "setZoom" ∈ radarRendererMethods := by
  refine ⟨by decide, by decide, by decide, by decide, by decide⟩

/-! ### Claim C3 -/

/-- C3 counterexample: at `r = 0` the round trip loses the angle.
`polarToCartesian 0 90 1` is the origin, and `cartesianToPolar` maps the
origin to angle 0, not 90 — an exact mismatch, not a floating-point
tolerance issue, so the claim fails for `r = 0`. -/
theorem polar_roundTrip_fails_at_zero :
    cartesianToPolar (polarToCartesian 0 90 1).1
      (polarToCartesian 0 90 1).2 1 ≠ (0, 90) := by
  have hx : (polarToCartesian 0 90 1).1 = 0 := by
    simp [polarToCartesian]
  have hy : (polarToCartesian 0 90 1).2 = 0 := by
    simp [polarToCartesian]
  rw [hx, hy, cartesianToPolar]
  simp only [atan2, Complex.ofReal_zero, zero_mul, add_zero,
    Complex.arg_zero, mul_zero, zero_div, mul_one, neg_zero]
  norm_num [Prod.ext_iff]

/-- C3 (amended): for every `r ∈ (0,1]`, `theta ∈ [0,360)` and maximum
radius `R > 0`, `cartesianToPolar` applied to the output of
`polarToCartesian` with the same `R` returns `(r, theta)` exactly, over
exact real arithmetic.  (At `r = 0` the angle is lost, see the
counterexample.) -/
theorem polar_roundTrip (r theta R : ℝ) (hr0 : 0 < r) (hr1 : r ≤ 1)
    (ht0 : 0 ≤ theta) (ht1 : theta < 360) (hR : 0 < R) :
    cartesianToPolar (polarToCartesian r theta R).1
      (polarToCartesian r theta R).2 R = (r, theta) := by
  have hpi := Real.pi_pos
  set θr := theta * Real.pi / 180 with hθr
  have hx : (polarToCartesian r theta R).1 = r * R * Real.cos θr := rfl
  have hy : (polarToCartesian r theta R).2 = -(r * R * Real.sin θr) := rfl
  have hrR : 0 < r * R := mul_pos hr0 hR
  rw [cartesianToPolar, hx, hy]
  have hsum : r * R * Real.cos θr * (r * R * Real.cos θr) +
      -(r * R * Real.sin θr) * -(r * R * Real.sin θr) = (r * R)^2 := by
    have hsc := Real.sin_sq_add_cos_sq θr
    nlinarith [hsc]
  rw [hsum]
  have hsqrt : Real.sqrt ((r * R)^2) = r * R := Real.sqrt_sq hrR.le
  rw [hsqrt]
  have hrdiv : r * R / R = r := mul_div_cancel_right₀ r (ne_of_gt hR)
  have hmin : min (r * R / R) 1 = r := by rw [hrdiv]; exact min_eq_left hr1
  have harg : atan2 (-(-(r * R * Real.sin θr))) (r * R * Real.cos θr) =
      if theta ≤ 180 then θr else θr - 2 * Real.pi := by
    rw [neg_neg, atan2]
    by_cases hcase : theta ≤ 180
    · rw [if_pos hcase]
      have hmem : θr ∈ Set.Ioc (-Real.pi) Real.pi := by
        constructor
        · have : 0 ≤ θr := by positivity
          linarith
        · rw [hθr, div_le_iff₀ (by norm_num : (0:ℝ) < 180)]
          nlinarith
      have hz : (↑(r * R * Real.cos θr) + ↑(r * R * Real.sin θr) *
            Complex.I)
          = ↑(r * R) * (Complex.cos ↑θr + Complex.sin ↑θr * Complex.I) := by
        push_cast [Complex.ofReal_cos, Complex.ofReal_sin]
        ring
      rw [hz, Complex.arg_real_mul _ hrR, Complex.arg_cos_add_sin_mul_I hmem]
    · rw [if_neg hcase]
      push_neg at hcase
      have hmem : θr - 2 * Real.pi ∈ Set.Ioc (-Real.pi) Real.pi := by
        constructor
        · rw [hθr, neg_lt, neg_sub,
            show 2 * Real.pi - theta * Real.pi / 180 =
              (360 - theta) * Real.pi / 180 by ring,
            div_lt_iff₀ (by norm_num : (0:ℝ) < 180)]
          nlinarith
        · rw [hθr]
          nlinarith
      have hcos : Real.cos θr = Real.cos (θr - 2 * Real.pi) :=
        (Real.cos_sub_two_pi θr).symm
      have hsin : Real.sin θr = Real.sin (θr - 2 * Real.pi) :=
        (Real.sin_sub_two_pi θr).symm
      have hz : (↑(r * R * Real.cos θr) + ↑(r * R * Real.sin θr) *
            Complex.I)
          = ↑(r * R) * (Complex.cos ↑(θr - 2 * Real.pi) +
              Complex.sin ↑(θr - 2 * Real.pi) * Complex.I) := by
        rw [hcos, hsin]
        push_cast [Complex.ofReal_cos, Complex.ofReal_sin]
        ring
      rw [hz, Complex.arg_real_mul _ hrR, Complex.arg_cos_add_sin_mul_I hmem]
  rw [harg]
  by_cases hcase : theta ≤ 180
  · rw [if_pos hcase]
    have hval : θr * 180 / Real.pi = theta := by
      rw [hθr]; field_simp
    rw [hval, if_neg (not_lt.mpr ht0), hmin]
  · rw [if_neg hcase]
    push_neg at hcase
    have hval : (θr - 2 * Real.pi) * 180 / Real.pi = theta - 360 := by
      rw [hθr]; field_simp; ring
    rw [hval, if_pos (by linarith : theta - 360 < 0), hmin]
    norm_num

/-- Witness for the amended C3 round trip at the concrete input
`r = 1`, `theta = 0`, `R = 1`. -/
theorem polar_roundTrip_witness :
    (0:ℝ) < 1 ∧ (1:ℝ) ≤ 1 ∧ (0:ℝ) ≤ 0 ∧ (0:ℝ) < 360 ∧
    cartesianToPolar (polarToCartesian 1 0 1).1
      (polarToCartesian 1 0 1).2 1 = (1, 0) :=
  ⟨one_pos, le_refl 1, le_refl 0, by norm_num,
   polar_roundTrip 1 0 1 one_pos (le_refl 1) (le_refl 0)
     (by norm_num) one_pos⟩

/-- The squared-distance guard used in the embedding agrees with the
source's `Math.sqrt(dx*dx + dy*dy) > DRAG_THRESHOLD` over the reals. -/
lemma crossed_iff_sqrt (sx sy : ℚ) (p : ℚ × ℚ) :
    crossed sx sy p = true ↔
      ((DRAG_THRESHOLD : ℚ) : ℝ) <
        Real.sqrt ((((p.1 - sx) * (p.1 - sx) +
          (p.2 - sy) * (p.2 - sy) : ℚ) : ℝ)) := by
  rw [crossed, decide_eq_true_iff,
    show ((DRAG_THRESHOLD : ℚ) : ℝ) = 5 by norm_num [DRAG_THRESHOLD],
    Real.lt_sqrt (by norm_num : (0:ℝ) ≤ 5),
    show ((5:ℝ)^2 = ((DRAG_THRESHOLD * DRAG_THRESHOLD : ℚ) : ℝ)) by
      norm_num [DRAG_THRESHOLD]]
  exact_mod_cast Iff.rfl

lemma run_append (rect : SvgRect) (s : InteractionState)
    (es₁ es₂ : List InputEvent) :
    run rect s (es₁ ++ es₂) =
      ((run rect (run rect s es₁).1 es₂).1,
       (run rect s es₁).2 ++ (run rect (run rect s es₁).1 es₂).2) := by
  induction es₁ generalizing s with
  | nil => simp [run]
  | cons e es ih =>
    simp only [List.cons_append, run]
    rw [show es.append es₂ = es ++ es₂ from rfl, ih]
    simp [List.append_assoc]

lemma updateDragPosition_fields (rect : SvgRect) (s : InteractionState)
    (x y : ℚ) (blipId : String) (hs : s.draggedBlip = some blipId) :
    (updateDragPosition rect s x y).draggedBlip = some blipId ∧
    (updateDragPosition rect s x y).dragStartX = s.dragStartX ∧
    (updateDragPosition rect s x y).dragStartY = s.dragStartY ∧
    (updateDragPosition rect s x y).hasDragged =
      (s.hasDragged || crossed s.dragStartX s.dragStartY (x, y)) := by
  rw [updateDragPosition, hs]
  by_cases hcr : DRAG_THRESHOLD * DRAG_THRESHOLD <
      (x - s.dragStartX) * (x - s.dragStartX) +
      (y - s.dragStartY) * (y - s.dragStartY)
  · simp [if_pos hcr, crossed, hcr, hs]
  · simp [if_neg hcr, crossed, hcr, hs]

lemma run_mouseMoves (rect : SvgRect) (moves : List (ℚ × ℚ)) :
    ∀ (s : InteractionState) (blipId : String),
      s.draggedBlip = some blipId →
      (run rect s (moves.map (fun p => InputEvent.mouseMove p.1 p.2))).2
          = [] ∧
      (run rect s
          (moves.map (fun p => InputEvent.mouseMove p.1 p.2))).1.draggedBlip
          = some blipId ∧
      (run rect s
          (moves.map (fun p => InputEvent.mouseMove p.1 p.2))).1.hasDragged
          = (s.hasDragged ||
              moves.any (crossed s.dragStartX s.dragStartY)) := by
  induction moves with
  | nil =>
    intro s blipId hs
    simp [run, hs]
  | cons m rest ih =>
    intro s blipId hs
    have hsome : s.draggedBlip.isSome = true := by rw [hs]; rfl
    obtain ⟨f1, f2, f3, f4⟩ :=
      updateDragPosition_fields rect s m.1 m.2 blipId hs
    obtain ⟨ih1, ih2, ih3⟩ := ih (updateDragPosition rect s m.1 m.2) blipId f1
    refine ⟨?_, ?_, ?_⟩
    · simp only [List.map_cons, run, step, onMouseMove, hsome, if_true]
      simpa using ih1
    · simp only [List.map_cons, run, step, onMouseMove, hsome, if_true]
      simpa using ih2
    · simp only [List.map_cons, run, step, onMouseMove, hsome, if_true]
      have hrest : (run rect (updateDragPosition rect s m.1 m.2)
          (rest.map (fun p => InputEvent.mouseMove p.1 p.2))).1.hasDragged
          = ((s.hasDragged || crossed s.dragStartX s.dragStartY m) ||
              rest.any (crossed s.dragStartX s.dragStartY)) := by
        rw [ih3, f4, f2, f3]
      simpa [List.any_cons, Bool.or_assoc] using hrest

lemma endDrag_intents (rect : SvgRect) (s : InteractionState)
    (x y : ℚ) (blipId : String) (hs : s.draggedBlip = some blipId) :
    ((endDrag rect s x y).2).map Intent.kind =
      (if s.hasDragged then [IntentKind.blipMove]
       else [IntentKind.blipClick]) := by
  cases hD : s.hasDragged <;>
    simp [endDrag, hs, hD, Intent.kind]

/-- The intents of a complete mouse gesture that starts on a blip:
exactly one blip-move when some sampled move crossed the threshold,
exactly one blip-click otherwise. -/
lemma run_gesture_kinds (rect : SvgRect) (blipId : String)
    (x0 y0 xu yu : ℚ) (moves : List (ℚ × ℚ)) :
    ((run rect initialInteractionState
        (InputEvent.mouseDownOnBlip blipId x0 y0 ::
          (moves.map (fun p => InputEvent.mouseMove p.1 p.2) ++
            [InputEvent.mouseUp xu yu]))).2).map Intent.kind =
      (if moves.any (crossed x0 y0) then [IntentKind.blipMove]
       else [IntentKind.blipClick]) := by
  have hstep : step rect initialInteractionState
      (InputEvent.mouseDownOnBlip blipId x0 y0) =
      (startDrag initialInteractionState blipId x0 y0, []) := rfl
  set s₁ := startDrag initialInteractionState blipId x0 y0 with hs₁def
  have hs₁blip : s₁.draggedBlip = some blipId := rfl
  have hs₁x : s₁.dragStartX = x0 := rfl
  have hs₁y : s₁.dragStartY = y0 := rfl
  have hs₁drag : s₁.hasDragged = false := rfl
  obtain ⟨hm2, hmblip, hmdrag⟩ := run_mouseMoves rect moves s₁ blipId hs₁blip
  set s₂ := (run rect s₁
    (moves.map (fun p => InputEvent.mouseMove p.1 p.2))).1 with hs₂def
  have hs₂some : s₂.draggedBlip.isSome = true := by rw [hmblip]; rfl
  have hup : (run rect s₂ [InputEvent.mouseUp xu yu]).2 =
      (endDrag rect s₂ xu yu).2 := by
    simp [run, step, hs₂some]
  calc ((run rect initialInteractionState
        (InputEvent.mouseDownOnBlip blipId x0 y0 ::
          (moves.map (fun p => InputEvent.mouseMove p.1 p.2) ++
            [InputEvent.mouseUp xu yu]))).2).map Intent.kind
      = ((run rect s₁
          (moves.map (fun p => InputEvent.mouseMove p.1 p.2) ++
            [InputEvent.mouseUp xu yu])).2).map Intent.kind := by
        simp only [run, hstep]
        rfl
    _ = ((endDrag rect s₂ xu yu).2).map Intent.kind := by
        rw [run_append, hm2, ← hs₂def, hup]
        rfl
    _ = (if s₂.hasDragged then [IntentKind.blipMove]
         else [IntentKind.blipClick]) :=
        endDrag_intents rect s₂ xu yu blipId hmblip
    _ = (if moves.any (crossed x0 y0) then [IntentKind.blipMove]
         else [IntentKind.blipClick]) := by
        rw [hmdrag, hs₁drag, hs₁x, hs₁y, Bool.false_or]

/-! ### Claim C4 -/

/-- C4 counterexample: a gesture whose single move is exactly 5 pixels
from the down-point (squared distance `25 = DRAG_THRESHOLD²`, i.e.
movement ≥ 5px) emits a click intent and no move intent, because the
source latches only on `distance > DRAG_THRESHOLD`, strictly — the
claim's `≥ 5px ⇒ move` boundary is wrong. -/
theorem drag_threshold_boundary :
    ((run ⟨0, 0, 600, 600⟩ initialInteractionState
        (InputEvent.mouseDownOnBlip "b" 0 0 ::
          ([((5:ℚ), (0:ℚ))].map (fun p => InputEvent.mouseMove p.1 p.2) ++
            [InputEvent.mouseUp 5 0]))).2).map Intent.kind =
      [IntentKind.blipClick] ∧
    ((5:ℚ) - 0) * (5 - 0) + (0 - 0) * (0 - 0) =
      DRAG_THRESHOLD * DRAG_THRESHOLD := by
  constructor
  · rw [run_gesture_kinds, if_neg]
    intro hany
    obtain ⟨p, hp, hc⟩ := List.any_eq_true.mp hany
    rw [List.mem_singleton] at hp
    subst hp
    have := of_decide_eq_true hc
    norm_num [DRAG_THRESHOLD] at this
  · norm_num [DRAG_THRESHOLD]

/-- C4 (amended): for a complete pointer-down-to-pointer-up mouse
gesture starting on a blip, if every sampled move point stays within 5
pixels of the down-point (squared distance at most `DRAG_THRESHOLD²`),
exactly one `onBlipClick` intent and no `onBlipMove` intent is emitted;
if some sampled move point is strictly farther than 5 pixels, exactly
one `onBlipMove` intent and no `onBlipClick` intent is emitted (the
latch is one-way for the duration of the gesture).  The claim's
boundary case is corrected: movement of exactly 5px is a click, because
the source tests `distance > threshold` strictly. -/
theorem drag_click_disambiguation (rect : SvgRect) (blipId : String)
    (x0 y0 xu yu : ℚ) (moves : List (ℚ × ℚ)) :
    ((∀ p ∈ moves,
        (p.1 - x0) * (p.1 - x0) + (p.2 - y0) * (p.2 - y0) ≤
          DRAG_THRESHOLD * DRAG_THRESHOLD) →
      ((run rect initialInteractionState
          (InputEvent.mouseDownOnBlip blipId x0 y0 ::
            (moves.map (fun p => InputEvent.mouseMove p.1 p.2) ++
              [InputEvent.mouseUp xu yu]))).2).map Intent.kind =
        [IntentKind.blipClick]) ∧
    ((∃ p ∈ moves, DRAG_THRESHOLD * DRAG_THRESHOLD <
        (p.1 - x0) * (p.1 - x0) + (p.2 - y0) * (p.2 - y0)) →
      ((run rect initialInteractionState
          (InputEvent.mouseDownOnBlip blipId x0 y0 ::
            (moves.map (fun p => InputEvent.mouseMove p.1 p.2) ++
              [InputEvent.mouseUp xu yu]))).2).map Intent.kind =
        [IntentKind.blipMove]) := by
  constructor
  · intro h
    have hfalse : moves.any (crossed x0 y0) ≠ true := by
      intro hany
      obtain ⟨p, hp, hc⟩ := List.any_eq_true.mp hany
      exact absurd (of_decide_eq_true hc) (not_lt.mpr (h p hp))
    rw [run_gesture_kinds, if_neg hfalse]
  · intro h
    rw [run_gesture_kinds, if_pos]
    obtain ⟨p, hp, hgt⟩ := h
    exact List.any_eq_true.mpr ⟨p, hp, decide_eq_true hgt⟩

/-- Witness for the amended C4 at two concrete gestures: a 2px move
yields a click, a 10px move yields a move. -/
theorem drag_click_disambiguation_witness :
    ((run ⟨0, 0, 600, 600⟩ initialInteractionState
        (InputEvent.mouseDownOnBlip "b" 0 0 ::
          ([((2:ℚ), (0:ℚ))].map (fun p => InputEvent.mouseMove p.1 p.2) ++
            [InputEvent.mouseUp 2 0]))).2).map Intent.kind =
      [IntentKind.blipClick] ∧
    ((run ⟨0, 0, 600, 600⟩ initialInteractionState
        (InputEvent.mouseDownOnBlip "b" 0 0 ::
          ([((10:ℚ), (0:ℚ))].map (fun p => InputEvent.mouseMove p.1 p.2) ++
            [InputEvent.mouseUp 10 0]))).2).map Intent.kind =
      [IntentKind.blipMove] :=
  ⟨(drag_click_disambiguation ⟨0, 0, 600, 600⟩ "b" 0 0 2 0
      [((2:ℚ), (0:ℚ))]).1
    (by norm_num [DRAG_THRESHOLD]),
   (drag_click_disambiguation ⟨0, 0, 600, 600⟩ "b" 0 0 10 0
      [((10:ℚ), (0:ℚ))]).2
    ⟨((10:ℚ), (0:ℚ)), List.mem_singleton.mpr rfl,
      by norm_num [DRAG_THRESHOLD]⟩⟩

/-! ### Claim C5 -/

/-- C5: construction registers listeners for exactly the seven event
types `mousedown`, `mousemove`, `mouseup`, `touchstart`, `touchmove`,
`touchend` and `wheel`; no listener exists for `blur`, `pointercancel`,
`touchcancel` or `mouseleave`.  Consequently, when the window blurs
mid-drag the state machine receives no dispatch: the state is left with
`draggedBlip` still set and the `dragging` affordance still applied —
it is not forced back to idle — contradicting the claim. -/
theorem no_cancellation_listeners :
    radarEventTypes =
      ["mousedown", "mousemove", "mouseup", "touchstart", "touchmove",
       "touchend", "wheel"] ∧
    "blur" ∉ radarEventTypes ∧
    "pointercancel" ∉ radarEventTypes ∧
    "touchcancel" ∉ radarEventTypes ∧
    "mouseleave" ∉ radarEventTypes ∧
    step ⟨0, 0, 600, 600⟩
        ((run ⟨0, 0, 600, 600⟩ initialInteractionState
          [InputEvent.mouseDownOnBlip "b1" 10 10]).1)
        InputEvent.windowBlur =
      ((run ⟨0, 0, 600, 600⟩ initialInteractionState
          [InputEvent.mouseDownOnBlip "b1" 10 10]).1, []) ∧
    ((run ⟨0, 0, 600, 600⟩ initialInteractionState
        [InputEvent.mouseDownOnBlip "b1" 10 10]).1).draggedBlip =
      some "b1" ∧
    ((run ⟨0, 0, 600, 600⟩ initialInteractionState
        [InputEvent.mouseDownOnBlip "b1" 10 10]).1).draggingClass = true := by
  refine ⟨by decide, by decide, by decide, by decide, by decide,
    rfl, rfl, rfl⟩

/-! ### Claim C8 -/

/-- C8: every store and renderer operation given a blip id that is not
present leaves the radar data and the scene entirely unchanged:
`updateBlipPosition`, `updateBlip` and `removeBlip` on the store, and
`updateBlipPosition` and `removeBlip` on the renderer, are all no-ops
on a referential miss. -/
theorem missing_blip_noop (radar : RadarData) (scene : List SceneBlip)
    (blipId : String) (r theta : ℚ) (updates : PartialBlip) (now : ℤ)
    (hstore : ∀ b ∈ radar.blips, b.id ≠ blipId)
    (hscene : ∀ e ∈ scene, e.blipId ≠ blipId) :
    RadarStore.updateBlipPosition radar blipId r theta now = radar ∧
    RadarStore.updateBlip radar blipId updates now = radar ∧
    RadarStore.removeBlip radar blipId now = radar ∧
    RadarRenderer.updateBlipPosition scene blipId r theta = scene ∧
    RadarRenderer.removeBlip scene blipId = scene := by
  have hfind : radar.blips.find? (fun b => b.id == blipId) = none := by
    rw [List.find?_eq_none]
    intro b hb
    simpa using hstore b hb
  have hfindIdx : radar.blips.findIdx? (fun b => b.id == blipId) = none := by
    rw [List.findIdx?_eq_none_iff]
    intro b hb
    simpa using hstore b hb
  have hfindScene : scene.find? (fun e => e.blipId == blipId) = none := by
    rw [List.find?_eq_none]
    intro e he
    simpa using hscene e he
  refine ⟨?_, ?_, ?_, ?_, ?_⟩
  · rw [RadarStore.updateBlipPosition, hfind]
  · rw [RadarStore.updateBlip, hfind]
  · rw [RadarStore.removeBlip, hfindIdx]
  · rw [RadarRenderer.updateBlipPosition, hfindScene]
  · rw [RadarRenderer.removeBlip]
    apply List.eraseP_of_forall_not
    intro e he
    simpa using hscene e he

/-- Witness for C8: a one-blip radar and an empty scene, with a lookup
for an id that is not present. -/
theorem missing_blip_noop_witness :
    RadarStore.updateBlipPosition
        ⟨DEFAULT_PRIORITIES, DEFAULT_CATEGORIES,
          [⟨"a", "text", "T", none, 1/2, 45, none, 0⟩], 0⟩
        "missing" (9/10) 200 7 =
      ⟨DEFAULT_PRIORITIES, DEFAULT_CATEGORIES,
        [⟨"a", "text", "T", none, 1/2, 45, none, 0⟩], 0⟩ ∧
    RadarStore.removeBlip
        ⟨DEFAULT_PRIORITIES, DEFAULT_CATEGORIES,
          [⟨"a", "text", "T", none, 1/2, 45, none, 0⟩], 0⟩
        "missing" 7 =
      ⟨DEFAULT_PRIORITIES, DEFAULT_CATEGORIES,
        [⟨"a", "text", "T", none, 1/2, 45, none, 0⟩], 0⟩ ∧
    RadarRenderer.removeBlip ([] : List SceneBlip) "missing" = [] := by
  have h := missing_blip_noop
    ⟨DEFAULT_PRIORITIES, DEFAULT_CATEGORIES,
      [⟨"a", "text", "T", none, 1/2, 45, none, 0⟩], 0⟩
    ([] : List SceneBlip) "missing" (9/10) 200 {} 7
    (by simp) (by simp)
  exact ⟨h.1, h.2.2.1, h.2.2.2.2⟩

end Radar
